import Mathlib

/-!
Shallow embedding of the nb-clean normalization core
(`check_notebook` / `clean_notebook` from `src/nb_clean/__init__.py`).

Notebooks, cells and outputs are modelled as explicit structures; Python
dictionaries become association lists preserving insertion order; missing
dictionary keys become `Option`; the Python exceptions (`ValueError` on the
mutually exclusive metadata flags, and an uncaught `TypeError` when the
`language_info` entry of the notebook metadata is not itself a mapping)
become an `Except` error value.  Python's in-place mutation is modelled by
explicit state passing: both functions return the post-call notebook, so
frame properties ("check never mutates its argument") are statable.
-/

namespace NbClean

/-- Arbitrary JSON-ish metadata value: an opaque leaf or a nested mapping. -/
inductive MetaValue where
  | leaf : String → MetaValue
  | map : List (String × MetaValue) → MetaValue

/-- A metadata mapping: ordered association list of string keys to values. -/
abbrev Metadata := List (String × MetaValue)

/-- One output record of a code cell.  The `execution_count` dictionary entry
may be absent (`none`), present but null (`some none`), or present with an
integer value (`some (some n)`). -/
structure Output where
  data : String
  execution_count : Option (Option Int)
deriving DecidableEq

/-- One notebook cell, mirroring the fields the source reads and writes. -/
structure Cell where
  cell_type : String
  source : List String
  metadata : Metadata
  execution_count : Option Int
  outputs : List Output

/-- A notebook: ordered cells plus document-level metadata. -/
structure Notebook where
  cells : List Cell
  metadata : Metadata

/-- The six keyword options of `check_notebook` and `clean_notebook`. -/
structure Config where
  remove_empty_cells : Bool
  remove_all_notebook_metadata : Bool
  preserve_cell_metadata : Option (List String)
  preserve_cell_outputs : Bool
  preserve_execution_counts : Bool
  preserve_notebook_metadata : Bool

/-- The default values of the keyword options. -/
def defaultConfig : Config :=
  { remove_empty_cells := false
    remove_all_notebook_metadata := false
    preserve_cell_metadata := none
    preserve_cell_outputs := false
    preserve_execution_counts := false
    preserve_notebook_metadata := false }

/-- Exceptions escaping the two core functions: the `ValueError` raised on the
mutually exclusive metadata flags (called `InvalidConfiguration` by the spec),
and the `TypeError` raised when `notebook["metadata"]["language_info"]` is not
a mapping (only `KeyError` is suppressed by the source). -/
inductive PyErr where
  | invalidConfiguration
  | typeError
deriving DecidableEq

/-- Python truthiness of a cell's `execution_count`: `None` and `0` are falsy. -/
def truthyEC : Option Int → Bool
  | none => false
  | some n => n != 0

/-- Python `output.get("execution_count")`: `None` when the key is absent,
otherwise the stored value (which may itself be null). -/
def outputGetEC (o : Output) : Option Int :=
  match o.execution_count with
  | none => none
  | some v => v

/-- First-match association-list lookup, mirroring Python dictionary lookup. -/
def lookupMeta (md : Metadata) (k : String) : Option MetaValue :=
  match md.find? (fun kv => kv.1 == k) with
  | some kv => some kv.2
  | none => none

/-- Result of evaluating `notebook["metadata"]["language_info"]["version"]`:
the path exists, a `KeyError` was raised (some key on the path is absent), or
a `TypeError` was raised (`language_info` is present but not a mapping). -/
inductive ProbeResult where
  | found
  | keyError
  | typeError
deriving DecidableEq

/-- Evaluate the nested lookup `metadata["language_info"]["version"]`. -/
def probeLangInfoVersion (md : Metadata) : ProbeResult :=
  match lookupMeta md "language_info" with
  | none => .keyError
  | some (.leaf _) => .typeError
  | some (.map li) =>
    match lookupMeta li "version" with
    | none => .keyError
    | some _ => .found

/-- Violation lines produced by the cell-metadata block of `check_notebook`
(lines 218-226 of the source): with `preserve_cell_metadata=None` any
non-empty metadata is one violation; with a non-empty collection, one
violation per metadata field not in the collection; with an empty collection,
nothing is checked. -/
def cellMetadataViolations (pcm : Option (List String)) (pre : String)
    (md : Metadata) : List String :=
  match pcm with
  | none => if md.isEmpty then [] else [pre ++ ": metadata"]
  | some fields =>
    if fields.length > 0 then
      (md.filter (fun fv => !fields.contains fv.1)).map
        (fun fv => pre ++ ": metadata " ++ fv.1)
    else []

/-- The body of the per-cell loop of `check_notebook` (lines 211-241): returns
the cell (unmodified, as the loop only reads it) and the violation lines it
prints, in print order. -/
def checkCell (cfg : Config) (pre : String) (cell : Cell) :
    Cell × List String :=
  let emptyLines :=
    if cfg.remove_empty_cells && cell.source.isEmpty then
      [pre ++ ": empty cell"]
    else []
  let mdLines := cellMetadataViolations cfg.preserve_cell_metadata pre
    cell.metadata
  let codeLines :=
    if cell.cell_type == "code" then
      (if !cfg.preserve_execution_counts && truthyEC cell.execution_count then
          [pre ++ ": execution count"]
        else [])
      ++ (if cfg.preserve_cell_outputs then
            if !cfg.preserve_execution_counts then
              (cell.outputs.filter (fun o => (outputGetEC o).isSome)).map
                (fun _ => pre ++ ": output execution count")
            else []
          else if cell.outputs.isEmpty then []
          else [pre ++ ": outputs"])
    else []
  (cell, emptyLines ++ mdLines ++ codeLines)

/-- The whole `enumerate(notebook.cells)` loop of `check_notebook`: the cells
after the loop, and all violation lines in print order. -/
def checkCells (cfg : Config) (label : String) (idx : Nat) :
    List Cell → List Cell × List String
  | [] => ([], [])
  | c :: cs =>
    let r := checkCell cfg (label ++ " cell " ++ toString idx) c
    let rest := checkCells cfg label (idx + 1) cs
    (r.1 :: rest.1, r.2 ++ rest.2)

/-- The document-level `language_info.version` probe of `check_notebook`
(lines 247-251): run only when `preserve_notebook_metadata` is false;
`KeyError` is suppressed, `TypeError` escapes. -/
def versionCheck (label : String) (preserve_notebook_metadata : Bool)
    (md : Metadata) : Except PyErr (List String) :=
  if !preserve_notebook_metadata then
    match probeLangInfoVersion md with
    | .found => .ok [label ++ " metadata: language_info.version"]
    | .keyError => .ok []
    | .typeError => .error .typeError
  else .ok []

/-- Embedding of `check_notebook` (source lines 172-253).  Returns the
post-call notebook, the boolean result (`True` iff no violation line was
printed), and the violation lines in print order. -/
def check_notebook (label : String) (nb : Notebook) (cfg : Config) :
    Except PyErr (Notebook × Bool × List String) :=
  if cfg.preserve_notebook_metadata && cfg.remove_all_notebook_metadata then
    .error .invalidConfiguration
  else
    let r := checkCells cfg label 0 nb.cells
    let metaLines :=
      if cfg.remove_all_notebook_metadata && !nb.metadata.isEmpty then
        [label ++ ": metadata"]
      else []
    match versionCheck label cfg.preserve_notebook_metadata nb.metadata with
    | .error e => .error e
    | .ok verLines =>
      let lines := r.2 ++ metaLines ++ verLines
      .ok ({ cells := r.1, metadata := nb.metadata }, lines.isEmpty, lines)

/-- The cell-metadata rewrite of `clean_notebook` (lines 294-301). -/
def cleanCellMetadata (pcm : Option (List String)) (md : Metadata) :
    Metadata :=
  match pcm with
  | none => []
  | some fields =>
    if fields.length > 0 then md.filter (fun fv => fields.contains fv.1)
    else md

/-- The output rewrite of `clean_notebook` (lines 307-309): if the
`execution_count` key is present, set it to null; otherwise leave the output
alone. -/
def cleanOutput (o : Output) : Output :=
  if o.execution_count.isSome then { o with execution_count := some none }
  else o

/-- The body of the per-cell loop of `clean_notebook` (lines 293-311). -/
def cleanCell (cfg : Config) (cell : Cell) : Cell :=
  let cell :=
    { cell with
        metadata := cleanCellMetadata cfg.preserve_cell_metadata
          cell.metadata }
  if cell.cell_type == "code" then
    let cell :=
      if !cfg.preserve_execution_counts then
        { cell with execution_count := none }
      else cell
    if cfg.preserve_cell_outputs then
      if !cfg.preserve_execution_counts then
        { cell with outputs := cell.outputs.map cleanOutput }
      else cell
    else { cell with outputs := [] }
  else cell

/-- Embedding of `del notebook["metadata"]["language_info"]["version"]` under
`contextlib.suppress(KeyError)` (lines 316-317): a missing key anywhere on
the path is a no-op; a non-mapping `language_info` raises `TypeError`. -/
def delLangInfoVersion (md : Metadata) : Except PyErr Metadata :=
  match lookupMeta md "language_info" with
  | none => .ok md
  | some (.leaf _) => .error .typeError
  | some (.map li) =>
    match lookupMeta li "version" with
    | none => .ok md
    | some _ =>
      .ok (md.map (fun kv =>
        if kv.1 == "language_info" then
          (kv.1, MetaValue.map (li.filter (fun kv2 => kv2.1 != "version")))
        else kv))

/-- The document-level metadata step of `clean_notebook` (lines 313-317):
`if remove_all_notebook_metadata: metadata = {}` / `elif not
preserve_notebook_metadata: del ...version` / else leave it alone. -/
def cleanDocMetadata (cfg : Config) (md : Metadata) : Except PyErr Metadata :=
  if cfg.remove_all_notebook_metadata then .ok []
  else if !cfg.preserve_notebook_metadata then delLangInfoVersion md
  else .ok md

/-- Embedding of `clean_notebook` (source lines 256-319): returns the
rewritten notebook, or the exception that escaped. -/
def clean_notebook (nb : Notebook) (cfg : Config) : Except PyErr Notebook :=
  if cfg.preserve_notebook_metadata && cfg.remove_all_notebook_metadata then
    .error .invalidConfiguration
  else
    let cells0 :=
      if cfg.remove_empty_cells then
        nb.cells.filter (fun c => !c.source.isEmpty)
      else nb.cells
    let cells1 := cells0.map (cleanCell cfg)
    match cleanDocMetadata cfg nb.metadata with
    | .error e => .error e
    | .ok md => .ok { cells := cells1, metadata := md }

/-! Basic lemmas about the per-cell transformations. -/

theorem checkCell_fst (cfg : Config) (pre : String) (c : Cell) :
    (checkCell cfg pre c).1 = c := rfl

theorem checkCells_fst (cfg : Config) (label : String) (idx : Nat)
    (cs : List Cell) : (checkCells cfg label idx cs).1 = cs := by
  induction cs generalizing idx with
  | nil => rfl
  | cons c cs ih => simp [checkCells, checkCell_fst, ih]

theorem cleanCell_def (cfg : Config) (c : Cell) :
    cleanCell cfg c =
      { cell_type := c.cell_type
        source := c.source
        metadata := cleanCellMetadata cfg.preserve_cell_metadata c.metadata
        execution_count :=
          if c.cell_type == "code" && !cfg.preserve_execution_counts then none
          else c.execution_count
        outputs :=
          if c.cell_type == "code" then
            if cfg.preserve_cell_outputs then
              if cfg.preserve_execution_counts then c.outputs
              else c.outputs.map cleanOutput
            else []
          else c.outputs } := by
  obtain ⟨ct, src, md, ec, outs⟩ := c
  unfold cleanCell
  cases h : ct == "code" <;>
    cases hpe : cfg.preserve_execution_counts <;>
    cases hpo : cfg.preserve_cell_outputs <;>
    simp [h, hpe, hpo]

theorem cleanCell_cell_type (cfg : Config) (c : Cell) :
    (cleanCell cfg c).cell_type = c.cell_type := by
  rw [cleanCell_def]

theorem cleanCell_source (cfg : Config) (c : Cell) :
    (cleanCell cfg c).source = c.source := by
  rw [cleanCell_def]

theorem cleanCell_metadata (cfg : Config) (c : Cell) :
    (cleanCell cfg c).metadata
      = cleanCellMetadata cfg.preserve_cell_metadata c.metadata := by
  rw [cleanCell_def]

theorem cleanOutput_no_ec (o : Output) :
    (outputGetEC (cleanOutput o)).isSome = false := by
  unfold cleanOutput outputGetEC
  cases h : o.execution_count <;> simp [h]

theorem cleanOutput_idem (o : Output) :
    cleanOutput (cleanOutput o) = cleanOutput o := by
  unfold cleanOutput
  cases h : o.execution_count <;> simp [h]

theorem cleanCellMetadata_idem (pcm : Option (List String)) (md : Metadata) :
    cleanCellMetadata pcm (cleanCellMetadata pcm md)
      = cleanCellMetadata pcm md := by
  unfold cleanCellMetadata
  cases pcm with
  | none => rfl
  | some fields =>
    by_cases h : fields.length > 0
    · simp [h, List.filter_filter]
    · simp [h]

theorem cleanCell_idem (cfg : Config) (c : Cell) :
    cleanCell cfg (cleanCell cfg c) = cleanCell cfg c := by
  rw [cleanCell_def cfg c, cleanCell_def]
  simp only [cleanCellMetadata_idem]
  cases h : c.cell_type == "code" <;>
    cases hpe : cfg.preserve_execution_counts <;>
    cases hpo : cfg.preserve_cell_outputs <;>
    simp [h, hpe, hpo, List.map_map, Function.comp, cleanOutput_idem]

/-! Lemmas about metadata lookup, the version probe, and the version delete. -/

theorem lookupMeta_nil (k : String) : lookupMeta [] k = none := rfl

theorem lookupMeta_cons (x : String × MetaValue) (t : Metadata) (k : String) :
    lookupMeta (x :: t) k = if x.1 == k then some x.2 else lookupMeta t k := by
  unfold lookupMeta
  rw [List.find?_cons]
  cases h : x.1 == k <;> simp [h]

theorem lookupMeta_replace (md : Metadata) (k : String) (v' : MetaValue)
    (h : (lookupMeta md k).isSome) :
    lookupMeta
      (md.map (fun kv => if kv.1 == k then (kv.1, v') else kv)) k
      = some v' := by
  induction md with
  | nil => simp [lookupMeta] at h
  | cons x t ih =>
    rw [lookupMeta_cons] at h
    cases hk : x.1 == k with
    | true =>
      have hk' : x.1 = k := by simpa using hk
      simp [List.map_cons, hk', lookupMeta_cons]
    | false =>
      have hk' : ¬(x.1 = k) := by simpa using hk
      have h' : (lookupMeta t k).isSome = true := by
        rw [hk] at h
        simpa using h
      simpa [List.map_cons, hk', lookupMeta_cons] using ih h'

theorem lookupMeta_filter_version (li : Metadata) :
    lookupMeta (li.filter (fun kv2 => kv2.1 != "version")) "version"
      = none := by
  unfold lookupMeta
  have hfind :
      (li.filter (fun kv2 => kv2.1 != "version")).find?
        (fun kv => kv.1 == "version") = none := by
    rw [List.find?_eq_none]
    intro kv hkv
    have hp := List.of_mem_filter hkv
    simp only [bne_iff_ne, ne_eq] at hp
    simp [hp]
  rw [hfind]

theorem probe_delLangInfoVersion (md md' : Metadata)
    (h : delLangInfoVersion md = .ok md') :
    probeLangInfoVersion md' = .keyError := by
  unfold delLangInfoVersion at h
  cases hli : lookupMeta md "language_info" with
  | none =>
    simp only [hli] at h
    cases h
    unfold probeLangInfoVersion
    rw [hli]
  | some v =>
    cases v with
    | leaf s => simp only [hli] at h; simp at h
    | map li =>
      simp only [hli] at h
      cases hv : lookupMeta li "version" with
      | none =>
        simp only [hv] at h
        cases h
        simp only [probeLangInfoVersion, hli, hv]
      | some w =>
        simp only [hv] at h
        cases h
        have hrep := lookupMeta_replace md "language_info"
          (MetaValue.map (li.filter (fun kv2 => kv2.1 != "version")))
          (by rw [hli]; rfl)
        simp only [probeLangInfoVersion, hrep, lookupMeta_filter_version]

theorem delLangInfoVersion_of_keyError (md : Metadata)
    (h : probeLangInfoVersion md = .keyError) :
    delLangInfoVersion md = .ok md := by
  unfold probeLangInfoVersion at h
  unfold delLangInfoVersion
  cases hli : lookupMeta md "language_info" with
  | none => simp only [hli]
  | some v =>
    cases v with
    | leaf s =>
      simp only [hli] at h
      exact absurd h (by decide)
    | map li =>
      simp only [hli] at h ⊢
      cases hv : lookupMeta li "version" with
      | none => simp only [hv]
      | some w =>
        simp only [hv] at h
        exact absurd h (by decide)

theorem delLangInfoVersion_idem (md md' : Metadata)
    (h : delLangInfoVersion md = .ok md') :
    delLangInfoVersion md' = .ok md' :=
  delLangInfoVersion_of_keyError md' (probe_delLangInfoVersion md md' h)

theorem versionCheck_of_keyError (label : String) (pnm : Bool) (md : Metadata)
    (h : probeLangInfoVersion md = .keyError) :
    versionCheck label pnm md = .ok [] := by
  unfold versionCheck
  cases pnm with
  | true => rfl
  | false => simp [h]

theorem probeLangInfoVersion_nil : probeLangInfoVersion [] = .keyError := rfl

theorem cleanDocMetadata_ok_probe (cfg : Config) (md md' : Metadata)
    (h : cleanDocMetadata cfg md = .ok md')
    (hpnm : cfg.preserve_notebook_metadata = false) :
    probeLangInfoVersion md' = .keyError := by
  unfold cleanDocMetadata at h
  cases hram : cfg.remove_all_notebook_metadata with
  | true =>
    rw [hram] at h
    simp at h
    subst h
    exact probeLangInfoVersion_nil
  | false =>
    rw [hram, hpnm] at h
    simp at h
    exact probe_delLangInfoVersion md md' h

theorem cleanDocMetadata_ok_empty (cfg : Config) (md md' : Metadata)
    (h : cleanDocMetadata cfg md = .ok md')
    (hram : cfg.remove_all_notebook_metadata = true) : md' = [] := by
  unfold cleanDocMetadata at h
  rw [hram] at h
  simp at h
  exact h

theorem cleanDocMetadata_idem (cfg : Config) (md md' : Metadata)
    (h : cleanDocMetadata cfg md = .ok md') :
    cleanDocMetadata cfg md' = .ok md' := by
  unfold cleanDocMetadata at h ⊢
  cases hram : cfg.remove_all_notebook_metadata with
  | true =>
    rw [hram] at h
    simp at h
    subst h
    simp
  | false =>
    rw [hram] at h
    simp only [Bool.false_eq_true, if_false] at h
    cases hpnm : cfg.preserve_notebook_metadata with
    | true => simp [hpnm]
    | false =>
      rw [hpnm] at h
      simp only [Bool.not_false, if_true] at h
      simp only [Bool.false_eq_true, if_false, Bool.not_false, if_true]
      exact delLangInfoVersion_idem md md' h

/-! Per-cell and whole-notebook check-after-clean lemmas. -/

theorem cellMetadataViolations_cleanCellMetadata
    (pcm : Option (List String)) (pre : String) (md : Metadata) :
    cellMetadataViolations pcm pre (cleanCellMetadata pcm md) = [] := by
  unfold cellMetadataViolations cleanCellMetadata
  cases pcm with
  | none => simp
  | some fields =>
    by_cases hf : fields.length > 0
    · simp [hf, List.filter_filter]
    · simp [hf]

theorem checkCell_cleanCell (cfg : Config) (pre : String) (c : Cell)
    (hsrc : cfg.remove_empty_cells = true → c.source ≠ []) :
    (checkCell cfg pre (cleanCell cfg c)).2 = [] := by
  rw [cleanCell_def]
  unfold checkCell
  cases hrec : cfg.remove_empty_cells <;>
    cases hct : c.cell_type == "code" <;>
    cases hpe : cfg.preserve_execution_counts <;>
    cases hpo : cfg.preserve_cell_outputs <;>
    simp [hrec, hct, hpe, hpo, hsrc, truthyEC,
      cellMetadataViolations_cleanCellMetadata, List.filter_map,
      Function.comp, cleanOutput_no_ec]

theorem checkCells_eq_nil (cfg : Config) (label : String) (idx : Nat)
    (cs : List Cell)
    (h : ∀ c ∈ cs, ∀ pre, (checkCell cfg pre c).2 = []) :
    (checkCells cfg label idx cs).2 = [] := by
  induction cs generalizing idx with
  | nil => rfl
  | cons c t ih =>
    simp [checkCells, h c (List.mem_cons_self c t),
      ih (idx + 1) (fun x hx pre => h x (List.mem_cons_of_mem c hx) pre)]

theorem check_notebook_ok_of_parts (label : String) (nb : Notebook)
    (cfg : Config)
    (hguard : (cfg.preserve_notebook_metadata
      && cfg.remove_all_notebook_metadata) = false)
    (hcells : (checkCells cfg label 0 nb.cells).2 = [])
    (hmeta : (cfg.remove_all_notebook_metadata
      && !nb.metadata.isEmpty) = false)
    (hver : versionCheck label cfg.preserve_notebook_metadata nb.metadata
      = .ok []) :
    check_notebook label nb cfg = .ok (nb, true, []) := by
  unfold check_notebook
  rw [hguard]
  simp [hver, hcells, hmeta, checkCells_fst]

theorem clean_notebook_ok_parts (nb : Notebook) (cfg : Config)
    (nb' : Notebook) (h : clean_notebook nb cfg = .ok nb') :
    (cfg.preserve_notebook_metadata
      && cfg.remove_all_notebook_metadata) = false
    ∧ nb'.cells
      = ((if cfg.remove_empty_cells then
            nb.cells.filter (fun c => !c.source.isEmpty)
          else nb.cells).map (cleanCell cfg))
    ∧ cleanDocMetadata cfg nb.metadata = .ok nb'.metadata := by
  unfold clean_notebook at h
  cases hguard : (cfg.preserve_notebook_metadata
      && cfg.remove_all_notebook_metadata) with
  | true => rw [hguard] at h; simp at h
  | false =>
    rw [hguard] at h
    simp only [Bool.false_eq_true, if_false] at h
    cases hmd : cleanDocMetadata cfg nb.metadata with
    | error e => rw [hmd] at h; simp at h
    | ok md =>
      rw [hmd] at h
      simp only [] at h
      simp at h
      subst h
      exact ⟨rfl, rfl, rfl⟩

theorem check_notebook_eq (label : String) (nb : Notebook) (cfg : Config)
    (vl : List String)
    (hguard : (cfg.preserve_notebook_metadata
      && cfg.remove_all_notebook_metadata) = false)
    (hv : versionCheck label cfg.preserve_notebook_metadata nb.metadata
      = .ok vl) :
    check_notebook label nb cfg
      = .ok (nb,
          ((checkCells cfg label 0 nb.cells).2
            ++ (if cfg.remove_all_notebook_metadata && !nb.metadata.isEmpty
                then [label ++ ": metadata"] else [])
            ++ vl).isEmpty,
          (checkCells cfg label 0 nb.cells).2
            ++ (if cfg.remove_all_notebook_metadata && !nb.metadata.isEmpty
                then [label ++ ": metadata"] else [])
            ++ vl) := by
  unfold check_notebook
  rw [hguard, hv]
  simp [checkCells_fst]

theorem check_notebook_ok_state (label : String) (nb : Notebook)
    (cfg : Config) (out : Notebook × Bool × List String)
    (h : check_notebook label nb cfg = .ok out) : out.1 = nb := by
  unfold check_notebook at h
  cases hguard : (cfg.preserve_notebook_metadata
      && cfg.remove_all_notebook_metadata) with
  | true => rw [hguard] at h; simp at h
  | false =>
    rw [hguard] at h
    simp only [Bool.false_eq_true, if_false] at h
    cases hv : versionCheck label cfg.preserve_notebook_metadata
        nb.metadata with
    | error e => rw [hv] at h; simp at h
    | ok vl =>
      rw [hv] at h
      simp [checkCells_fst] at h
      rw [← h]

/-! Example notebooks used to instantiate the universally quantified claim
theorems at concrete inputs. -/

/-- A dirty code cell: non-empty source, tagged metadata, execution count 3,
and one output carrying its own execution count. -/
def exCellCode : Cell :=
  { cell_type := "code"
    source := ["x = 1"]
    metadata := [("tags", MetaValue.leaf "a")]
    execution_count := some 3
    outputs := [{ data := "1", execution_count := some (some 3) }] }

/-- A dirty notebook: the cell above plus `language_info.version` metadata. -/
def exNotebook : Notebook :=
  { cells := [exCellCode]
    metadata := [("language_info",
      MetaValue.map [("name", MetaValue.leaf "python"),
        ("version", MetaValue.leaf "3.9")])] }

/-- The notebook obtained by cleaning `exNotebook` with the defaults. -/
def exCleaned : Notebook :=
  { cells := [{ cell_type := "code"
                source := ["x = 1"]
                metadata := []
                execution_count := none
                outputs := [] }]
    metadata := [("language_info",
      MetaValue.map [("name", MetaValue.leaf "python")])] }

/-- A configuration with both document-metadata flags set, violating the
mutual-exclusion invariant. -/
def exBadConfig : Config :=
  { defaultConfig with
      remove_all_notebook_metadata := true
      preserve_notebook_metadata := true }

/-- C1: for every document and configuration under which clean returns a
result, checking that result under the same configuration reports no
violations and returns true. -/
theorem check_clean_consistency (label : String) (nb : Notebook)
    (cfg : Config) (nb' : Notebook) (h : clean_notebook nb cfg = .ok nb') :
    check_notebook label nb' cfg = .ok (nb', true, []) := by
  obtain ⟨hguard, hcells, hmd⟩ := clean_notebook_ok_parts nb cfg nb' h
  apply check_notebook_ok_of_parts
  · exact hguard
  · rw [hcells]
    apply checkCells_eq_nil
    intro c' hc' pre
    rw [List.mem_map] at hc'
    obtain ⟨c, hc, rfl⟩ := hc'
    apply checkCell_cleanCell
    intro hrec
    rw [hrec] at hc
    simp only [if_true] at hc
    simpa using (List.mem_filter.mp hc).2
  · cases hram : cfg.remove_all_notebook_metadata with
    | false => simp [hram]
    | true =>
      have hempty : nb'.metadata = [] :=
        cleanDocMetadata_ok_empty cfg nb.metadata nb'.metadata hmd hram
      simp [hram, hempty]
  · cases hpnm : cfg.preserve_notebook_metadata with
    | true => unfold versionCheck; simp [hpnm]
    | false =>
      exact versionCheck_of_keyError label false nb'.metadata
        (cleanDocMetadata_ok_probe cfg nb.metadata nb'.metadata hmd hpnm)

/-- Witness for C1: checking the cleaned example notebook under the default
configuration reports no violations. -/
theorem check_clean_consistency_witness :
    check_notebook "notebook" exCleaned defaultConfig
      = .ok (exCleaned, true, []) :=
  check_clean_consistency "notebook" exNotebook defaultConfig exCleaned rfl

/-- C2: clean is idempotent — cleaning an already-cleaned document under the
same configuration returns it unchanged. -/
theorem clean_idempotent (nb : Notebook) (cfg : Config) (nb' : Notebook)
    (h : clean_notebook nb cfg = .ok nb') :
    clean_notebook nb' cfg = .ok nb' := by
  obtain ⟨hguard, hcells, hmd⟩ := clean_notebook_ok_parts nb cfg nb' h
  have hfix : nb'.cells.map (cleanCell cfg) = nb'.cells := by
    conv_rhs => rw [hcells]
    rw [hcells, List.map_map]
    exact List.map_congr_left (fun c _ => cleanCell_idem cfg c)
  have hkeep :
      (if cfg.remove_empty_cells then
        nb'.cells.filter (fun c => !c.source.isEmpty)
      else nb'.cells) = nb'.cells := by
    cases hrec : cfg.remove_empty_cells with
    | false => simp
    | true =>
      simp only [if_true]
      apply List.filter_eq_self.mpr
      intro c' hc'
      rw [hcells, hrec] at hc'
      simp only [if_true] at hc'
      rw [List.mem_map] at hc'
      obtain ⟨c, hc, rfl⟩ := hc'
      rw [cleanCell_source]
      exact (List.mem_filter.mp hc).2
  unfold clean_notebook
  rw [hguard]
  simp only [Bool.false_eq_true, if_false]
  rw [cleanDocMetadata_idem cfg nb.metadata nb'.metadata hmd]
  rw [hkeep, hfix]

/-- Witness for C2: cleaning the cleaned example notebook again returns it
unchanged. -/
theorem clean_idempotent_witness :
    clean_notebook exCleaned defaultConfig = .ok exCleaned :=
  clean_idempotent exNotebook defaultConfig exCleaned rfl

/-- C3: with both `remove_all_notebook_metadata` and
`preserve_notebook_metadata` set, both check and clean fail with
`InvalidConfiguration` and produce no result document and no report. -/
theorem invalid_configuration_rejected (cfg : Config)
    (h1 : cfg.remove_all_notebook_metadata = true)
    (h2 : cfg.preserve_notebook_metadata = true)
    (label : String) (nb : Notebook) :
    check_notebook label nb cfg = .error .invalidConfiguration
    ∧ clean_notebook nb cfg = .error .invalidConfiguration := by
  constructor
  · unfold check_notebook
    simp [h1, h2]
  · unfold clean_notebook
    simp [h1, h2]

/-- Witness for C3: the example notebook is rejected under the conflicting
configuration. -/
theorem invalid_configuration_rejected_witness :
    check_notebook "notebook" exNotebook exBadConfig
      = .error .invalidConfiguration
    ∧ clean_notebook exNotebook exBadConfig
      = .error .invalidConfiguration :=
  invalid_configuration_rejected exBadConfig rfl rfl "notebook" exNotebook

/-- C8: check never mutates its document — whenever it returns, the
post-call document equals the input in every field. -/
theorem check_preserves_notebook (label : String) (nb : Notebook)
    (cfg : Config) (nb' : Notebook) (b : Bool) (ls : List String)
    (h : check_notebook label nb cfg = .ok (nb', b, ls)) : nb' = nb :=
  check_notebook_ok_state label nb cfg (nb', b, ls) h

/-- Witness for C8: checking the dirty example notebook under the default
configuration leaves it unchanged. -/
theorem check_preserves_notebook_witness : exNotebook = exNotebook :=
  check_preserves_notebook "notebook" exNotebook defaultConfig exNotebook
    false
    ["notebook cell 0: metadata", "notebook cell 0: execution count",
      "notebook cell 0: outputs",
      "notebook metadata: language_info.version"]
    rfl

/-- C7: the cells returned by clean form a subsequence of the input cells
(witnessed by their `source` fields, which clean never modifies), equal to
the full sequence when `remove_empty_cells` is false; check leaves the cell
sequence untouched. -/
theorem clean_cells_subsequence (nb : Notebook) (cfg : Config)
    (nb' : Notebook) (h : clean_notebook nb cfg = .ok nb') :
    List.Sublist (nb'.cells.map Cell.source) (nb.cells.map Cell.source)
    ∧ (cfg.remove_empty_cells = false →
        nb'.cells.map Cell.source = nb.cells.map Cell.source)
    ∧ (∀ label out, check_notebook label nb cfg = .ok out →
        out.1.cells.map Cell.source = nb.cells.map Cell.source) := by
  obtain ⟨-, hcells, -⟩ := clean_notebook_ok_parts nb cfg nb' h
  have hsrcs : nb'.cells.map Cell.source
      = (if cfg.remove_empty_cells then
          nb.cells.filter (fun c => !c.source.isEmpty)
        else nb.cells).map Cell.source := by
    rw [hcells, List.map_map]
    exact List.map_congr_left (fun c _ => cleanCell_source cfg c)
  refine ⟨?_, ?_, ?_⟩
  · rw [hsrcs]
    cases hrec : cfg.remove_empty_cells with
    | false =>
      simp only [Bool.false_eq_true, if_false]
      exact List.Sublist.refl _
    | true =>
      simp only [if_true]
      exact List.Sublist.map Cell.source (List.filter_sublist nb.cells)
  · intro hrec
    rw [hsrcs, hrec]
    simp
  · intro label out hchk
    rw [check_notebook_ok_state label nb cfg out hchk]

/-- Witness for C7: the sources of the cleaned example notebook are a
subsequence of the sources of the input. -/
theorem clean_cells_subsequence_witness :
    List.Sublist (exCleaned.cells.map Cell.source)
      (exNotebook.cells.map Cell.source) :=
  (clean_cells_subsequence exNotebook defaultConfig exCleaned rfl).1

/-- C9: with non-empty preserve sets A ⊆ B, the cell metadata kept by clean
under A is a subset of the metadata kept under B. -/
theorem preserve_set_monotone (cfg : Config) (cell : Cell)
    (A B : List String) (hA : A ≠ []) (hB : B ≠ [])
    (hAB : ∀ x ∈ A, x ∈ B) :
    ∀ kv ∈ (cleanCell { cfg with preserve_cell_metadata := some A }
        cell).metadata,
      kv ∈ (cleanCell { cfg with preserve_cell_metadata := some B }
        cell).metadata := by
  intro kv hkv
  rw [cleanCell_metadata] at hkv ⊢
  unfold cleanCellMetadata at hkv ⊢
  simp only at hkv ⊢
  have hAlen : A.length > 0 := List.length_pos.mpr hA
  have hBlen : B.length > 0 := List.length_pos.mpr hB
  rw [if_pos hAlen] at hkv
  rw [if_pos hBlen]
  rw [List.mem_filter] at hkv ⊢
  refine ⟨hkv.1, ?_⟩
  exact List.elem_eq_true_of_mem
    (hAB kv.1 (List.mem_of_elem_eq_true hkv.2))

/-- Witness for C9: a tags field kept under the singleton preserve set is
also kept under a larger preserve set. -/
theorem preserve_set_monotone_witness :
    ("tags", MetaValue.leaf "a") ∈
      (cleanCell { defaultConfig with
          preserve_cell_metadata := some ["tags", "slideshow"] }
        exCellCode).metadata :=
  preserve_set_monotone defaultConfig exCellCode ["tags"]
    ["tags", "slideshow"] (by decide) (by decide) (by decide)
    ("tags", MetaValue.leaf "a")
    (by rw [cleanCell_metadata]; simp [cleanCellMetadata, exCellCode])

/-- A clean-looking notebook whose single code cell has execution count 0:
check's truthiness test accepts it, clean still rewrites it. -/
def zeroCountNotebook : Notebook :=
  { cells := [{ cell_type := "code"
                source := ["x"]
                metadata := []
                execution_count := some 0
                outputs := [] }]
    metadata := [] }

/-- The result of cleaning `zeroCountNotebook` with the defaults. -/
def zeroCountCleaned : Notebook :=
  { cells := [{ cell_type := "code"
                source := ["x"]
                metadata := []
                execution_count := none
                outputs := [] }]
    metadata := [] }

/-- C10: a notebook accepted by check can still be changed by clean — a code
cell with execution count 0 passes check (truthiness test) but clean resets
the count to null. -/
theorem check_clean_gap_execution_count_zero :
    ∃ (nb : Notebook) (cfg : Config) (nb' : Notebook),
      check_notebook "notebook" nb cfg = .ok (nb, true, [])
      ∧ clean_notebook nb cfg = .ok nb'
      ∧ nb' ≠ nb := by
  refine ⟨zeroCountNotebook, defaultConfig, zeroCountCleaned,
    rfl, rfl, ?_⟩
  intro hEq
  have hc := congrArg (fun n : Notebook => n.cells.map Cell.execution_count)
    hEq
  simp [zeroCountNotebook, zeroCountCleaned] at hc

/-- Configuration keeping only the `tags` cell-metadata field. -/
def cfgKeepTags : Config :=
  { defaultConfig with preserve_cell_metadata := some ["tags"] }

/-- Configuration preserving outputs but not execution counts. -/
def cfgPreserveOutputs : Config :=
  { defaultConfig with preserve_cell_outputs := true }

/-- C5: the three-way `preserve_cell_metadata` policy — `None` flags any
non-empty cell metadata and clean empties it; an empty collection checks
nothing and clean leaves metadata untouched; a non-empty collection yields
one violation per field outside it, and clean keeps exactly the present
fields whose names are in it. -/
theorem preserve_cell_metadata_policy (cfg : Config) (pre : String)
    (cell : Cell) :
    (cfg.preserve_cell_metadata = none →
      ((cellMetadataViolations none pre cell.metadata = []
          ↔ cell.metadata = [])
        ∧ (cleanCell cfg cell).metadata = []))
    ∧ (cfg.preserve_cell_metadata = some [] →
      (cellMetadataViolations (some []) pre cell.metadata = []
        ∧ (cleanCell cfg cell).metadata = cell.metadata))
    ∧ (∀ fs, cfg.preserve_cell_metadata = some fs → fs ≠ [] →
      ((cellMetadataViolations (some fs) pre cell.metadata).length
          = (cell.metadata.filter (fun fv => !fs.contains fv.1)).length
        ∧ (∀ f v, (f, v) ∈ cell.metadata → ¬f ∈ fs →
            (pre ++ ": metadata " ++ f)
              ∈ cellMetadataViolations (some fs) pre cell.metadata)
        ∧ (∀ k v, (k, v) ∈ (cleanCell cfg cell).metadata
            ↔ ((k, v) ∈ cell.metadata ∧ k ∈ fs)))) := by
  refine ⟨?_, ?_, ?_⟩
  · intro hpcm
    constructor
    · unfold cellMetadataViolations
      cases cell.metadata <;> simp
    · rw [cleanCell_metadata, hpcm]
      rfl
  · intro hpcm
    constructor
    · rfl
    · rw [cleanCell_metadata, hpcm]
      rfl
  · intro fs hpcm hne
    have hlen : fs.length > 0 := List.length_pos.mpr hne
    refine ⟨?_, ?_, ?_⟩
    · simp only [cellMetadataViolations]
      rw [if_pos hlen, List.length_map]
    · intro f v hmem hnotin
      have hcont : (!fs.contains f) = true := by
        cases hc : fs.contains f
        · rfl
        · exact absurd (List.mem_of_elem_eq_true hc) hnotin
      simp only [cellMetadataViolations]
      rw [if_pos hlen, List.mem_map]
      refine ⟨(f, v), ?_, rfl⟩
      rw [List.mem_filter]
      exact ⟨hmem, hcont⟩
    · intro k v
      rw [cleanCell_metadata, hpcm]
      simp only [cleanCellMetadata]
      rw [if_pos hlen, List.mem_filter]
      constructor
      · exact fun hkv => ⟨hkv.1, List.mem_of_elem_eq_true hkv.2⟩
      · exact fun hkv => ⟨hkv.1, List.elem_eq_true_of_mem hkv.2⟩

/-- Witness for C5: with preserve set containing only `tags`, clean keeps
the tags field of the example cell exactly when it was present. -/
theorem preserve_cell_metadata_policy_witness :
    ("tags", MetaValue.leaf "a") ∈ (cleanCell cfgKeepTags exCellCode).metadata
      ↔ (("tags", MetaValue.leaf "a") ∈ exCellCode.metadata
          ∧ "tags" ∈ ["tags"]) :=
  ((preserve_cell_metadata_policy cfgKeepTags "p" exCellCode).2.2
    ["tags"] rfl (by decide)).2.2 "tags" (MetaValue.leaf "a")

/-- C6: with outputs preserved and execution counts not preserved, clean
nulls the `execution_count` field of each output that has one (whatever its
value) and leaves outputs without the field entirely unchanged. -/
theorem output_execution_count_rewrite (cfg : Config) (cell : Cell)
    (hpo : cfg.preserve_cell_outputs = true)
    (hpe : cfg.preserve_execution_counts = false)
    (hcode : cell.cell_type = "code") :
    (cleanCell cfg cell).outputs.length = cell.outputs.length
    ∧ ∀ i (h1 : i < cell.outputs.length)
        (h2 : i < (cleanCell cfg cell).outputs.length),
        ((cell.outputs.get ⟨i, h1⟩).execution_count = none →
          (cleanCell cfg cell).outputs.get ⟨i, h2⟩
            = cell.outputs.get ⟨i, h1⟩)
        ∧ (∀ v, (cell.outputs.get ⟨i, h1⟩).execution_count = some v →
          (cleanCell cfg cell).outputs.get ⟨i, h2⟩
            = { cell.outputs.get ⟨i, h1⟩ with
                  execution_count := some none }) := by
  have houts : (cleanCell cfg cell).outputs = cell.outputs.map cleanOutput := by
    rw [cleanCell_def]
    simp [hcode, hpo, hpe]
  refine ⟨by rw [houts]; simp, ?_⟩
  intro i h1 h2
  have hg : (cleanCell cfg cell).outputs.get ⟨i, h2⟩
      = cleanOutput (cell.outputs.get ⟨i, h1⟩) := by
    rw [List.get_eq_getElem, List.get_eq_getElem]
    simp only [houts, List.getElem_map]
  constructor
  · intro hnone
    rw [hg]
    unfold cleanOutput
    rw [hnone]
    simp
  · intro v hsome
    rw [hg]
    unfold cleanOutput
    rw [hsome]
    simp

/-- Witness for C6: cleaning the example code cell with outputs preserved
keeps the number of outputs. -/
theorem output_execution_count_rewrite_witness :
    (cleanCell cfgPreserveOutputs exCellCode).outputs.length
      = exCellCode.outputs.length :=
  (output_execution_count_rewrite cfgPreserveOutputs exCellCode
    rfl rfl rfl).1

/-- A notebook whose only content is `language_info.version` metadata. -/
def versionOnlyNotebook : Notebook :=
  { cells := []
    metadata := [("language_info",
      MetaValue.map [("version", MetaValue.leaf "3.9")])] }

/-- Configuration removing all notebook metadata. -/
def cfgRemoveAll : Config :=
  { defaultConfig with remove_all_notebook_metadata := true }

/-- Counterexample to C4 as stated: with `remove_all_notebook_metadata`
true, check still performs the `language_info.version` probe and reports
its violation line (the source guards it with an independent `if not
preserve_notebook_metadata`, not an `elif`). -/
theorem version_check_counterexample :
    check_notebook "notebook" versionOnlyNotebook cfgRemoveAll
      = .ok (versionOnlyNotebook, false,
          ["notebook: metadata",
            "notebook metadata: language_info.version"]) := rfl

/-- C4 (amended): whenever the configuration passes the mutual-exclusion
guard and the `language_info` lookup does not raise `TypeError`, check
returns normally (so a missing intermediate key never raises), and its
report is exactly the cell-scan lines, then the document-metadata line,
then the "metadata: language_info.version" line present if and only if
`preserve_notebook_metadata` is false and the path exists — in particular
the version check still runs when `remove_all_notebook_metadata` is true,
and a missing key anywhere on the path contributes no violation line. -/
theorem version_check_amended (label : String) (nb : Notebook)
    (cfg : Config)
    (hguard : (cfg.preserve_notebook_metadata
      && cfg.remove_all_notebook_metadata) = false)
    (hprobe : probeLangInfoVersion nb.metadata ≠ .typeError) :
    check_notebook label nb cfg
      = .ok (nb,
          ((checkCells cfg label 0 nb.cells).2
            ++ (if cfg.remove_all_notebook_metadata && !nb.metadata.isEmpty
                then [label ++ ": metadata"] else [])
            ++ (if cfg.preserve_notebook_metadata = false
                  ∧ probeLangInfoVersion nb.metadata = .found then
                [label ++ " metadata: language_info.version"]
              else [])).isEmpty,
          (checkCells cfg label 0 nb.cells).2
            ++ (if cfg.remove_all_notebook_metadata && !nb.metadata.isEmpty
                then [label ++ ": metadata"] else [])
            ++ (if cfg.preserve_notebook_metadata = false
                  ∧ probeLangInfoVersion nb.metadata = .found then
                [label ++ " metadata: language_info.version"]
              else [])) := by
  cases hpnm : cfg.preserve_notebook_metadata with
  | true =>
    have hv : versionCheck label cfg.preserve_notebook_metadata nb.metadata
        = .ok [] := by
      rw [hpnm]
      rfl
    have hif :
        (if (true = false
            ∧ probeLangInfoVersion nb.metadata = ProbeResult.found) then
          [label ++ " metadata: language_info.version"]
        else []) = ([] : List String) := if_neg (by simp)
    rw [hif]
    exact check_notebook_eq label nb cfg [] hguard hv
  | false =>
    cases hp : probeLangInfoVersion nb.metadata with
    | typeError => exact absurd hp hprobe
    | keyError =>
      have hv : versionCheck label cfg.preserve_notebook_metadata
          nb.metadata = .ok [] := by
        rw [hpnm]
        unfold versionCheck
        simp [hp]
      have hif :
          (if (false = false
              ∧ ProbeResult.keyError = ProbeResult.found) then
            [label ++ " metadata: language_info.version"]
          else []) = ([] : List String) := if_neg (by simp)
      rw [hif]
      exact check_notebook_eq label nb cfg [] hguard hv
    | found =>
      have hv : versionCheck label cfg.preserve_notebook_metadata
          nb.metadata
          = .ok [label ++ " metadata: language_info.version"] := by
        rw [hpnm]
        unfold versionCheck
        simp [hp]
      have hif :
          (if (false = false
              ∧ ProbeResult.found = ProbeResult.found) then
            [label ++ " metadata: language_info.version"]
          else [])
          = [label ++ " metadata: language_info.version"] :=
        if_pos ⟨rfl, rfl⟩
      rw [hif]
      exact check_notebook_eq label nb cfg
        [label ++ " metadata: language_info.version"] hguard hv

/-- Witness for C4 (amended): on the dirty example notebook with the
default configuration, check returns exactly the cell-scan lines followed
by the version violation line. -/
theorem version_check_amended_witness :
    check_notebook "notebook" exNotebook defaultConfig
      = .ok (exNotebook,
          ((checkCells defaultConfig "notebook" 0 exNotebook.cells).2
            ++ (if defaultConfig.remove_all_notebook_metadata
                  && !exNotebook.metadata.isEmpty
                then ["notebook" ++ ": metadata"] else [])
            ++ (if defaultConfig.preserve_notebook_metadata = false
                  ∧ probeLangInfoVersion exNotebook.metadata = .found then
                ["notebook" ++ " metadata: language_info.version"]
              else [])).isEmpty,
          (checkCells defaultConfig "notebook" 0 exNotebook.cells).2
            ++ (if defaultConfig.remove_all_notebook_metadata
                  && !exNotebook.metadata.isEmpty
                then ["notebook" ++ ": metadata"] else [])
            ++ (if defaultConfig.preserve_notebook_metadata = false
                  ∧ probeLangInfoVersion exNotebook.metadata = .found then
                ["notebook" ++ " metadata: language_info.version"]
              else [])) :=
  version_check_amended "notebook" exNotebook defaultConfig rfl (by decide)

end NbClean
